import Mathlib

/-!
# Chat/messaging subsystem of the ads-platform backend — shallow embedding

This file embeds the conversation directory, message ledger, access control
and lifecycle orchestration of `src/controllers/chat.controller.js` together
with the `Chat` model hooks of `src/models/Chat.js`, and proves or refutes
the frozen specification claims about them.

Modelling conventions:
* Mongo documents become Lean structures; a collection is a `List` in insertion
  order (Mongo inserts append; `find` returns documents in that order unless a
  `sort` is given).
* User and chat identifiers: a user id is its 24-hex-character ObjectId string;
  chat and message ids are drawn from `Nat` counters in the store state.
* `new mongoose.Types.ObjectId(s).toString()` lower-cases hex digits; this is
  modelled by `oidToString`.  `mongoose.Types.ObjectId.isValid` on a string is
  modelled by `isValidObjectId` (24 hex characters, either case).
* JavaScript `String.prototype.trim` is modelled by `jsTrim` over the ASCII
  whitespace characters that can occur here.
* `.sort({ createdAt: 1 })` is modelled as a stable sort (`List.insertionSort`)
  on the insertion-ordered collection.
* Each controller returns `Except ApiError α` for the payload together with the
  (possibly updated) store; an error leaves the store unchanged.
-/

namespace AdsChat

/-- The JS whitespace characters relevant to `trim` in this model. -/
def isWsChar (c : Char) : Bool :=
  c == ' ' || c == '\t' || c == '\n' || c == '\r'

/-- Model of JavaScript `s.trim()`: drop whitespace from both ends. -/
def jsTrim (s : String) : String :=
  ⟨((s.data.dropWhile isWsChar).reverse.dropWhile isWsChar).reverse⟩

/-- ASCII lower-casing of a single character, as performed by
`new ObjectId(hex).toString()` on hex digits. -/
def lowerChar (c : Char) : Char :=
  if 65 ≤ c.toNat ∧ c.toNat ≤ 90 then Char.ofNat (c.toNat + 32) else c

/-- Model of `new mongoose.Types.ObjectId(s).toString()`: the canonical
lower-case rendering of the id string. -/
def oidToString (s : String) : String :=
  ⟨s.data.map lowerChar⟩

/-- A hexadecimal digit (either case). -/
def isHexChar (c : Char) : Bool :=
  (48 ≤ c.toNat && c.toNat ≤ 57) ||
  (97 ≤ c.toNat && c.toNat ≤ 102) ||
  (65 ≤ c.toNat && c.toNat ≤ 70)

/-- Model of `mongoose.Types.ObjectId.isValid` on a string argument:
24 hexadecimal characters. -/
def isValidObjectId (s : String) : Bool :=
  s.data.length == 24 && s.data.all isHexChar

/-- Error taxonomy of the controllers (HTTP 401/400/404/403/500). -/
inductive ApiError where
  | unauthenticated
  | invalidArgument
  | notFound
  | forbidden
  | internal
deriving DecidableEq, Repr

/-- A `Message` document: `chat`, `sender`, `receiver`, `text`, `isRead`
plus the server-assigned id and `createdAt` timestamp. -/
structure Msg where
  id : Nat
  chat : Nat
  sender : String
  receiver : String
  text : String
  isRead : Bool
  createdAt : Nat
deriving DecidableEq, Repr

/-- A `Chat` document: canonical pair `user1 ≤ user2`, `participants`
stored as `[user1, user2]`, the denormalized `lastMessage` pointer and
timestamps. -/
structure Conv where
  id : Nat
  user1 : String
  user2 : String
  lastMessage : Option Nat
  createdAt : Nat
  updatedAt : Nat
deriving DecidableEq, Repr

/-- The `participants` array of a chat document (the pre-validate hook always
stores it as the sorted pair `[user1, user2]`). -/
def Conv.participants (c : Conv) : List String :=
  [c.user1, c.user2]

/-- The whole store: the `users`, `chats` and `messages` collections plus
fresh-id counters. -/
structure DB where
  users : List String
  chats : List Conv
  messages : List Msg
  nextChatId : Nat
  nextMsgId : Nat
deriving DecidableEq, Repr

/-- JS default string comparison on code units, as a lexicographic comparison
of the character lists. -/
def strLtList : List Char → List Char → Bool
  | [], [] => false
  | [], _ :: _ => true
  | _ :: _, [] => false
  | c :: cs, d :: ds =>
    if c.toNat < d.toNat then true
    else if d.toNat < c.toNat then false
    else strLtList cs ds

/-- `a < b` for JS strings. -/
def strLt (a b : String) : Bool :=
  strLtList a.data b.data

/-- `[a, b].sort()` on two strings (JS default lexicographic comparator). -/
def sortPair (a b : String) : String × String :=
  if strLt b a then (b, a) else (a, b)

/-- The `chatSchema.pre('validate')` hook of `src/models/Chat.js` applied to a
two-element `participants` array: trim the stringified ids, reject missing /
`'null'` / `'undefined'` / malformed ids, sort lexicographically, reject a
self-chat, and return the canonical `(user1, user2)` pair. -/
def chatPreValidate (p0 p1 : String) : Except ApiError (String × String) :=
  if jsTrim p0 = "" ∨ jsTrim p1 = "" ∨ jsTrim p0 = "null" ∨ jsTrim p1 = "null" ∨
     jsTrim p0 = "undefined" ∨ jsTrim p1 = "undefined" ∨
     isValidObjectId (jsTrim p0) = false ∨ isValidObjectId (jsTrim p1) = false then
    .error .invalidArgument
  else
    if (sortPair (jsTrim p0) (jsTrim p1)).1 = (sortPair (jsTrim p0) (jsTrim p1)).2 then
      .error .invalidArgument
    else .ok (sortPair (jsTrim p0) (jsTrim p1))

/-- The validation phase of `startChat` (controller lines 96–190): require a
present, non-empty, well-formed `receiverId` distinct from the caller, then run
`Chat.create`'s pre-validate hook on the sorted pair.  Returns the canonical
`(user1, user2)` pair that the created chat will store. -/
def startValidate (meId : String) (receiverIdRaw : Option String) :
    Except ApiError (String × String) :=
  match receiverIdRaw with
  | none => .error .invalidArgument
  | some raw =>
    if raw = "" ∨ jsTrim raw = "" ∨ raw = "null" ∨ raw = "undefined" then
      .error .invalidArgument
    else
      if isValidObjectId (jsTrim raw) = false then .error .invalidArgument
      else if isValidObjectId meId = false then
        -- `new ObjectId(req.user.id)` throws on a malformed id; the catch
        -- block surfaces it as a 500.
        .error .internal
      else
        if oidToString (jsTrim raw) = oidToString meId then .error .invalidArgument
        else
          chatPreValidate
            (sortPair (oidToString meId) (oidToString (jsTrim raw))).1
            (sortPair (oidToString meId) (oidToString (jsTrim raw))).2

/-- `startChat` (controller lines 93–244): validate, then *always* create a new
chat document for the canonical pair ("unlimited chats allowed between same
users" — the schema indexes are non-unique). -/
def startChat (db : DB) (now : Nat) (meId : String)
    (receiverIdRaw : Option String) : Except ApiError Conv × DB :=
  match startValidate meId receiverIdRaw with
  | .error e => (.error e, db)
  | .ok (a, b) =>
    let conv : Conv := { id := db.nextChatId, user1 := a, user2 := b,
                         lastMessage := none, createdAt := now, updatedAt := now }
    (.ok conv, { db with chats := db.chats ++ [conv],
                         nextChatId := db.nextChatId + 1 })

/-- `unreadCount` (controller lines 250–278):
`Message.countDocuments({ receiver: userId, isRead: false })`. -/
def unreadCount (db : DB) (userId : String) : Nat :=
  (db.messages.filter (fun m => m.receiver == userId && !m.isRead)).length

/-- The unread messages of one chat addressed to one recipient
(the per-conversation group of the `getChats` aggregation). -/
def unreadInChat (db : DB) (chatId : Nat) (userId : String) : Nat :=
  (db.messages.filter
    (fun m => m.chat == chatId && m.receiver == userId && !m.isRead)).length

/-- Comparison used by `.sort({ createdAt: 1 })`. -/
def msgLe (m₁ m₂ : Msg) : Prop :=
  m₁.createdAt ≤ m₂.createdAt

instance : DecidableRel msgLe := fun _ _ => Nat.decLe _ _

instance : IsTotal Msg msgLe := ⟨fun _ _ => Nat.le_total _ _⟩

instance : IsTrans Msg msgLe := ⟨fun _ _ _ => Nat.le_trans⟩

/-- `Message.find({ chat: chatId }).sort({ createdAt: 1 })`: the chat's
messages in stable chronological order. -/
def listByConversation (db : DB) (chatId : Nat) : List Msg :=
  (db.messages.filter (fun m => m.chat == chatId)).insertionSort msgLe

/-- The contract of `Message.find({ chat: chatId }).sort({ createdAt: 1 })`
with no secondary sort key: MongoDB may return any permutation of the chat's
messages that is non-decreasing in `createdAt`; the relative order of
documents with equal `createdAt` is unspecified.  `listByConversation` is one
admissible listing among these. -/
def isAdmissibleListing (db : DB) (chatId : Nat) (L : List Msg) : Prop :=
  L.isPerm (db.messages.filter (fun m => m.chat == chatId)) = true ∧
  L.Pairwise msgLe

/-- `Chat.findById`. -/
def findChat (db : DB) (chatId : Nat) : Option Conv :=
  db.chats.find? (fun c => c.id == chatId)

/-- The participant membership test
`chat.participants.some(p => p.toString() === me)`. -/
def isParticipant (c : Conv) (u : String) : Bool :=
  c.participants.any (fun p => p == u)

/-- The `updateMany` payload of `getMessages`: mark a message read when it
belongs to the chat, is addressed to the caller, and is still unread. -/
def markReadUpdate (chatId : Nat) (u : String) (m : Msg) : Msg :=
  if m.chat == chatId && m.receiver == u && !m.isRead then
    { m with isRead := true }
  else m

/-- `getMessages` (controller lines 345–413): find the chat (404 when absent),
require the caller to be a participant (403), return the chat's messages in
chronological order, then mark the caller's received messages read. -/
def getMessages (db : DB) (u : String) (chatId : Nat) :
    Except ApiError (List Msg) × DB :=
  match findChat db chatId with
  | none => (.error .notFound, db)
  | some chat =>
    if isParticipant chat u = false then (.error .forbidden, db)
    else
      let msgs := listByConversation db chatId
      (.ok msgs,
       { db with messages := db.messages.map (markReadUpdate chatId u) })

/-- `sendMessage` (controller lines 491–606): validate the text (non-empty
after trim, at most 2000 characters), find the chat (404), require the caller
to be a participant (403), determine the receiver as the other participant,
append the message with `isRead = false`, and update the chat's
`lastMessage` / `updatedAt` pointer. -/
def sendMessage (db : DB) (now : Nat) (u : String) (chatId : Nat)
    (text : Option String) : Except ApiError Msg × DB :=
  match text with
  | none => (.error .invalidArgument, db)
  | some t =>
    if (jsTrim t).length = 0 then (.error .invalidArgument, db)
    else if 2000 < (jsTrim t).length then (.error .invalidArgument, db)
    else
      match findChat db chatId with
      | none => (.error .notFound, db)
      | some chat =>
        if isParticipant chat u = false then (.error .forbidden, db)
        else
          match chat.participants.find? (fun p => !(p == u)) with
          | none => (.error .invalidArgument, db)
          | some receiverId =>
            let msg : Msg := { id := db.nextMsgId, chat := chatId, sender := u,
                               receiver := receiverId, text := jsTrim t,
                               isRead := false, createdAt := now }
            let chats' := db.chats.map (fun c =>
              if c.id == chatId then
                { c with lastMessage := some msg.id, updatedAt := now }
              else c)
            (.ok msg, { db with messages := db.messages ++ [msg],
                                chats := chats',
                                nextMsgId := db.nextMsgId + 1 })

/-- `Message.deleteMany({ chat: chatId })`: returns `deletedCount` and the
store without that chat's messages. -/
def deleteMessagesByChat (db : DB) (chatId : Nat) : Nat × DB :=
  ((db.messages.filter (fun m => m.chat == chatId)).length,
   { db with messages := db.messages.filter (fun m => !(m.chat == chatId)) })

/-- `Chat.findByIdAndDelete`. -/
def deleteConvById (db : DB) (chatId : Nat) : DB :=
  { db with chats := db.chats.filter (fun c => !(c.id == chatId)) }

/-- `deleteChat` (controller lines 419–485): find the chat (404), require the
caller to be a participant (403), delete the chat's messages first, then the
chat itself, and report the number of messages deleted. -/
def deleteChat (db : DB) (u : String) (chatId : Nat) : Except ApiError Nat × DB :=
  match findChat db chatId with
  | none => (.error .notFound, db)
  | some chat =>
    if isParticipant chat u = false then (.error .forbidden, db)
    else
      let r := deleteMessagesByChat db chatId
      (.ok r.1, deleteConvById r.2 chatId)

/-! ### Concrete fixtures used by the witness theorems -/

/-- A canonical user id. -/
def uA : String := "aaaaaaaaaaaaaaaaaaaaaaaa"

/-- A second canonical user id. -/
def uB : String := "bbbbbbbbbbbbbbbbbbbbbbbb"

/-- A third canonical user id, participant of no fixture chat. -/
def uC : String := "cccccccccccccccccccccccc"

/-- The empty store. -/
def dbEmpty : DB :=
  { users := [], chats := [], messages := [], nextChatId := 0, nextMsgId := 0 }

/-- A store with one chat between `uA` and `uB` and two messages from `uA`
to `uB`, both unread. -/
def dbTwo : DB :=
  { users := [uA, uB],
    chats := [{ id := 0, user1 := uA, user2 := uB, lastMessage := some 1,
                createdAt := 0, updatedAt := 3 }],
    messages :=
      [{ id := 0, chat := 0, sender := uA, receiver := uB, text := "hi",
         isRead := false, createdAt := 2 },
       { id := 1, chat := 0, sender := uA, receiver := uB, text := "there",
         isRead := false, createdAt := 3 }],
    nextChatId := 1, nextMsgId := 2 }

/-- A store with one chat between `uA` and `uB` and no messages yet. -/
def dbChat : DB :=
  { users := [uA, uB],
    chats := [{ id := 0, user1 := uA, user2 := uB, lastMessage := none,
                createdAt := 0, updatedAt := 0 }],
    messages := [], nextChatId := 1, nextMsgId := 0 }

/-- A store with one chat between `uA` and `uB` and two messages that share
the same `createdAt` timestamp (a timestamp-resolution tie). -/
def dbTie : DB :=
  { users := [uA, uB],
    chats := [{ id := 0, user1 := uA, user2 := uB, lastMessage := some 1,
                createdAt := 0, updatedAt := 5 }],
    messages :=
      [{ id := 0, chat := 0, sender := uA, receiver := uB, text := "hi",
         isRead := false, createdAt := 5 },
       { id := 1, chat := 0, sender := uA, receiver := uB, text := "yo",
         isRead := false, createdAt := 5 }],
    nextChatId := 1, nextMsgId := 2 }

end AdsChat

deriving instance DecidableEq for Except

namespace AdsChat

/-! ### Character and string lemmas -/

theorem char_eq_of_toNat_eq {c d : Char} (h : c.toNat = d.toNat) : c = d :=
  Char.ext (UInt32.toNat.inj h)

theorem hex_not_ws {c : Char} (h : isHexChar c = true) : isWsChar c = false := by
  simp only [isWsChar, Bool.or_eq_false_iff, beq_eq_false_iff_ne, ne_eq]
  refine ⟨⟨⟨?_, ?_⟩, ?_⟩, ?_⟩ <;> rintro rfl <;> exact absurd h (by decide)

theorem toNat_lowerChar (c : Char) :
    (lowerChar c).toNat =
      if 65 ≤ c.toNat ∧ c.toNat ≤ 90 then c.toNat + 32 else c.toNat := by
  unfold lowerChar
  by_cases h : 65 ≤ c.toNat ∧ c.toNat ≤ 90
  · have hvalid : (c.toNat + 32).isValidChar := Or.inl (by omega)
    rw [if_pos h, if_pos h, Char.ofNat, dif_pos hvalid]
    rfl
  · rw [if_neg h, if_neg h]

theorem hex_lower_hex {c : Char} (h : isHexChar c = true) :
    isHexChar (lowerChar c) = true := by
  have hn := toNat_lowerChar c
  simp only [isHexChar, Bool.or_eq_true, Bool.and_eq_true, decide_eq_true_eq] at h ⊢
  split at hn <;> omega

theorem valid_lower_valid {s : String} (h : isValidObjectId s = true) :
    isValidObjectId (oidToString s) = true := by
  simp only [isValidObjectId, oidToString, Bool.and_eq_true, List.all_eq_true,
    beq_iff_eq] at h ⊢
  obtain ⟨hlen, hall⟩ := h
  refine ⟨by simpa using hlen, ?_⟩
  intro c hc
  obtain ⟨d, hd, rfl⟩ := List.mem_map.mp hc
  exact hex_lower_hex (hall d hd)

theorem dropWhile_eq_self_of_all {p : Char → Bool} {l : List Char}
    (h : ∀ c ∈ l, p c = false) : l.dropWhile p = l := by
  cases l with
  | nil => rfl
  | cons c cs => simp [List.dropWhile_cons, h c (List.mem_cons_self c cs)]

theorem jsTrim_eq_self_of_all {s : String}
    (h : ∀ c ∈ s.data, isWsChar c = false) : jsTrim s = s := by
  unfold jsTrim
  rw [dropWhile_eq_self_of_all h,
    dropWhile_eq_self_of_all (fun c hc => h c (List.mem_reverse.mp hc)),
    List.reverse_reverse]

theorem jsTrim_of_valid {s : String} (h : isValidObjectId s = true) :
    jsTrim s = s := by
  apply jsTrim_eq_self_of_all
  intro c hc
  simp only [isValidObjectId, Bool.and_eq_true, List.all_eq_true] at h
  exact hex_not_ws (h.2 c hc)

theorem valid_ne_empty {s : String} (h : isValidObjectId s = true) : s ≠ "" :=
  fun heq => absurd (heq ▸ h) (by decide)

theorem valid_ne_null {s : String} (h : isValidObjectId s = true) : s ≠ "null" :=
  fun heq => absurd (heq ▸ h) (by decide)

theorem valid_ne_undef {s : String} (h : isValidObjectId s = true) :
    s ≠ "undefined" :=
  fun heq => absurd (heq ▸ h) (by decide)

/-! ### Lemmas about the JS string comparator and `sortPair` -/

theorem strLtList_irrefl : ∀ l, strLtList l l = false
  | [] => rfl
  | c :: cs => by simp [strLtList, strLtList_irrefl cs]

theorem strLtList_asymm :
    ∀ {l₁ l₂}, strLtList l₁ l₂ = true → strLtList l₂ l₁ = false
  | [], [], h => by simp [strLtList] at h
  | [], _ :: _, _ => by simp [strLtList]
  | _ :: _, [], h => by simp [strLtList] at h
  | c :: cs, d :: ds, h => by
    simp only [strLtList] at h ⊢
    by_cases hcd : c.toNat < d.toNat
    · have hdc : ¬ d.toNat < c.toNat := by omega
      simp [hcd, hdc]
    · by_cases hdc : d.toNat < c.toNat
      · simp [hcd, hdc] at h
      · simp only [if_neg hcd, if_neg hdc] at h
        simp only [if_neg hcd, if_neg hdc]
        exact strLtList_asymm h

theorem strLtList_eq_of_not_lt :
    ∀ {l₁ l₂}, strLtList l₁ l₂ = false → strLtList l₂ l₁ = false → l₁ = l₂
  | [], [], _, _ => rfl
  | [], _ :: _, h, _ => by simp [strLtList] at h
  | _ :: _, [], _, h' => by simp [strLtList] at h'
  | c :: cs, d :: ds, h, h' => by
    simp only [strLtList] at h h'
    by_cases hcd : c.toNat < d.toNat
    · simp [hcd] at h
    · by_cases hdc : d.toNat < c.toNat
      · simp [hdc] at h'
      · have hc : c = d := char_eq_of_toNat_eq (by omega)
        subst hc
        simp only [if_neg hcd, if_neg hdc] at h h'
        exact congrArg (List.cons c) (strLtList_eq_of_not_lt h h')

theorem strLt_asymm {a b : String} (h : strLt a b = true) : strLt b a = false :=
  strLtList_asymm h

theorem strLt_eq_of_not_lt {a b : String} (h : strLt a b = false)
    (h' : strLt b a = false) : a = b := by
  cases a with
  | mk la =>
    cases b with
    | mk lb =>
      have : la = lb := strLtList_eq_of_not_lt h h'
      rw [this]

theorem sortPair_comm (a b : String) : sortPair a b = sortPair b a := by
  unfold sortPair
  by_cases hba : strLt b a = true
  · simp [hba, strLt_asymm hba]
  · by_cases hab : strLt a b = true
    · simp [hba, hab]
    · have : a = b :=
        strLt_eq_of_not_lt (Bool.eq_false_iff.mpr hab) (Bool.eq_false_iff.mpr hba)
      subst this
      rfl

theorem sortPair_fst_lt {a b : String}
    (h : (sortPair a b).1 ≠ (sortPair a b).2) :
    strLt (sortPair a b).1 (sortPair a b).2 = true := by
  unfold sortPair at *
  by_cases hba : strLt b a = true
  · simp [hba]
  · simp only [hba, if_neg, Bool.false_eq_true, not_false_iff, if_false] at h ⊢
    cases hab : strLt a b with
    | true => rfl
    | false =>
      exact absurd (strLt_eq_of_not_lt hab (Bool.eq_false_iff.mpr hba)) h

theorem sortPair_idem (a b : String) :
    sortPair (sortPair a b).1 (sortPair a b).2 = sortPair a b := by
  unfold sortPair
  by_cases hba : strLt b a = true
  · simp [hba, strLt_asymm hba]
  · simp [hba]

theorem sortPair_cases (a b : String) :
    sortPair a b = (a, b) ∨ sortPair a b = (b, a) := by
  unfold sortPair
  by_cases hba : strLt b a = true
  · exact Or.inr (by simp [hba])
  · exact Or.inl (by simp [hba])

/-! ### Inversion lemmas for the controller operations -/

theorem isParticipant_false_iff {c : Conv} {u : String} :
    isParticipant c u = false ↔ c.user1 ≠ u ∧ c.user2 ≠ u := by
  simp [isParticipant, Conv.participants, not_or]

theorem isParticipant_true_of {c : Conv} {u : String}
    (h : c.user1 = u ∨ c.user2 = u) : isParticipant c u = true := by
  rcases h with h | h <;> simp [isParticipant, Conv.participants, h]

theorem chatPreValidate_ok_inv {p0 p1 : String} {q : String × String}
    (h : chatPreValidate p0 p1 = .ok q) :
    q = sortPair (jsTrim p0) (jsTrim p1) ∧ q.1 ≠ q.2 := by
  unfold chatPreValidate at h
  by_cases h1 : jsTrim p0 = "" ∨ jsTrim p1 = "" ∨ jsTrim p0 = "null" ∨
      jsTrim p1 = "null" ∨ jsTrim p0 = "undefined" ∨ jsTrim p1 = "undefined" ∨
      isValidObjectId (jsTrim p0) = false ∨ isValidObjectId (jsTrim p1) = false
  · rw [if_pos h1] at h
    exact absurd h (by simp)
  · rw [if_neg h1] at h
    by_cases h2 : (sortPair (jsTrim p0) (jsTrim p1)).1 =
        (sortPair (jsTrim p0) (jsTrim p1)).2
    · rw [if_pos h2] at h
      exact absurd h (by simp)
    · rw [if_neg h2] at h
      obtain rfl : sortPair (jsTrim p0) (jsTrim p1) = q := by
        simpa using h
      exact ⟨rfl, h2⟩

/-- Forward evaluation of the pre-validate hook on two already canonical
(valid, trim-stable, distinct) id strings. -/
theorem chatPreValidate_canon {a b : String}
    (ha : isValidObjectId a = true) (hb : isValidObjectId b = true)
    (hne : a ≠ b) :
    chatPreValidate (sortPair a b).1 (sortPair a b).2 = .ok (sortPair a b) := by
  have hta : jsTrim a = a := jsTrim_of_valid ha
  have htb : jsTrim b = b := jsTrim_of_valid hb
  have htrim1 : jsTrim (sortPair a b).1 = (sortPair a b).1 := by
    rcases sortPair_cases a b with hc | hc <;> rw [hc] <;> assumption
  have htrim2 : jsTrim (sortPair a b).2 = (sortPair a b).2 := by
    rcases sortPair_cases a b with hc | hc <;> rw [hc] <;> assumption
  have hv1 : isValidObjectId (sortPair a b).1 = true := by
    rcases sortPair_cases a b with hc | hc <;> rw [hc] <;> assumption
  have hv2 : isValidObjectId (sortPair a b).2 = true := by
    rcases sortPair_cases a b with hc | hc <;> rw [hc] <;> assumption
  have hne12 : (sortPair a b).1 ≠ (sortPair a b).2 := by
    rcases sortPair_cases a b with hc | hc <;> rw [hc] <;>
      first
        | exact hne
        | exact fun heq => hne heq.symm
  unfold chatPreValidate
  rw [htrim1, htrim2]
  rw [if_neg, if_neg, sortPair_idem]
  · rw [sortPair_idem]
    exact hne12
  · push_neg
    refine ⟨valid_ne_empty hv1, valid_ne_empty hv2, valid_ne_null hv1,
      valid_ne_null hv2, valid_ne_undef hv1, valid_ne_undef hv2, ?_, ?_⟩ <;>
      simp [hv1, hv2]

theorem startValidate_ok_inv {me raw : String} {q : String × String}
    (h : startValidate me (some raw) = .ok q) :
    isValidObjectId (jsTrim raw) = true ∧ isValidObjectId me = true ∧
    oidToString (jsTrim raw) ≠ oidToString me ∧
    q = sortPair (oidToString me) (oidToString (jsTrim raw)) ∧ q.1 ≠ q.2 := by
  simp only [startValidate] at h
  by_cases h1 : raw = "" ∨ jsTrim raw = "" ∨ raw = "null" ∨ raw = "undefined"
  · rw [if_pos h1] at h
    exact absurd h (by simp)
  · rw [if_neg h1] at h
    by_cases h2 : isValidObjectId (jsTrim raw) = false
    · rw [if_pos h2] at h
      exact absurd h (by simp)
    · rw [if_neg h2] at h
      by_cases h3 : isValidObjectId me = false
      · rw [if_pos h3] at h
        exact absurd h (by simp)
      · rw [if_neg h3] at h
        by_cases h4 : oidToString (jsTrim raw) = oidToString me
        · rw [if_pos h4] at h
          exact absurd h (by simp)
        · rw [if_neg h4] at h
          have hva : isValidObjectId (oidToString me) = true :=
            valid_lower_valid (Bool.not_eq_false _ ▸ h3)
          have hvb : isValidObjectId (oidToString (jsTrim raw)) = true :=
            valid_lower_valid (Bool.not_eq_false _ ▸ h2)
          obtain ⟨hq, hne⟩ := chatPreValidate_ok_inv h
          have htrim1 : jsTrim (sortPair (oidToString me)
              (oidToString (jsTrim raw))).1 = (sortPair (oidToString me)
              (oidToString (jsTrim raw))).1 := by
            rcases sortPair_cases (oidToString me) (oidToString (jsTrim raw))
              with hc | hc <;> rw [hc] <;> exact jsTrim_of_valid (by assumption)
          have htrim2 : jsTrim (sortPair (oidToString me)
              (oidToString (jsTrim raw))).2 = (sortPair (oidToString me)
              (oidToString (jsTrim raw))).2 := by
            rcases sortPair_cases (oidToString me) (oidToString (jsTrim raw))
              with hc | hc <;> rw [hc] <;> exact jsTrim_of_valid (by assumption)
          rw [htrim1, htrim2, sortPair_idem] at hq
          exact ⟨Bool.not_eq_false _ ▸ h2, Bool.not_eq_false _ ▸ h3,
            h4, hq, hne⟩

/-- Forward evaluation of `startValidate` on a valid, non-self receiver. -/
theorem startValidate_ok_of_valid {me raw : String}
    (hme : isValidObjectId me = true)
    (hr : isValidObjectId (jsTrim raw) = true)
    (hne : oidToString (jsTrim raw) ≠ oidToString me) :
    startValidate me (some raw) =
      .ok (sortPair (oidToString me) (oidToString (jsTrim raw))) := by
  have h1 : ¬ (raw = "" ∨ jsTrim raw = "" ∨ raw = "null" ∨ raw = "undefined") := by
    push_neg
    refine ⟨?_, valid_ne_empty hr, ?_, ?_⟩
    · rintro rfl
      exact absurd hr (by decide)
    · rintro rfl
      exact absurd hr (by decide)
    · rintro rfl
      exact absurd hr (by decide)
  simp only [startValidate]
  rw [if_neg h1, if_neg (by simp [hr]), if_neg (by simp [hme]), if_neg hne]
  exact chatPreValidate_canon (valid_lower_valid hme) (valid_lower_valid hr)
    (fun heq => hne heq.symm)

theorem startChat_ok_inv {db : DB} {now : Nat} {me : String} {r : Option String}
    {c : Conv} (h : (startChat db now me r).1 = .ok c) :
    startValidate me r = .ok (c.user1, c.user2) ∧
    c.id = db.nextChatId ∧ c.lastMessage = none ∧
    (startChat db now me r).2 =
      { db with chats := db.chats ++ [c], nextChatId := db.nextChatId + 1 } := by
  cases hv : startValidate me r with
  | error e => simp [startChat, hv] at h
  | ok q =>
    obtain ⟨a, b⟩ := q
    have hc : c = ⟨db.nextChatId, a, b, none, now, now⟩ := by
      have := h
      simp [startChat, hv] at this
      exact this.symm
    subst hc
    refine ⟨rfl, rfl, rfl, ?_⟩
    simp [startChat, hv]


theorem getMessages_ok_inv {db : DB} {u : String} {cid : Nat} {msgs : List Msg}
    (h : (getMessages db u cid).1 = .ok msgs) :
    msgs = listByConversation db cid ∧
    (getMessages db u cid).2 =
      { db with messages := db.messages.map (markReadUpdate cid u) } := by
  cases hf : findChat db cid with
  | none => simp [getMessages, hf] at h
  | some chat =>
    by_cases hp : isParticipant chat u = false
    · simp [getMessages, hf, hp] at h
    · have h2 := h
      simp [getMessages, hf, hp] at h2
      exact ⟨h2.symm, by simp [getMessages, hf, hp]⟩

theorem sendMessage_ok_inv {db : DB} {now : Nat} {u : String} {cid : Nat}
    {t : String} {m : Msg}
    (h : (sendMessage db now u cid (some t)).1 = .ok m) :
    m.chat = cid ∧ m.createdAt = now ∧ m.isRead = false ∧
    m.id = db.nextMsgId ∧ m.text = jsTrim t ∧ m.sender = u ∧
    (sendMessage db now u cid (some t)).2.messages = db.messages ++ [m] := by
  by_cases hz : (jsTrim t).length = 0
  · simp [sendMessage, hz] at h
  · by_cases hb : 2000 < (jsTrim t).length
    · simp [sendMessage, hz, hb] at h
    · cases hf : findChat db cid with
      | none => simp [sendMessage, hz, hb, hf] at h
      | some chat =>
        by_cases hp : isParticipant chat u = false
        · simp [sendMessage, hz, hb, hf, hp] at h
        · cases hr : chat.participants.find? (fun p => !(p == u)) with
          | none => simp [sendMessage, hz, hb, hf, hp, hr] at h
          | some recv =>
            have hm : m = ⟨db.nextMsgId, cid, u, recv, jsTrim t, false, now⟩ := by
              have h3 := h
              simp [sendMessage, hz, hb, hf, hp, hr] at h3
              exact h3.symm
            subst hm
            refine ⟨rfl, rfl, rfl, rfl, rfl, rfl, ?_⟩
            simp [sendMessage, hz, hb, hf, hp, hr]

theorem deleteChat_ok_inv {db : DB} {u : String} {cid : Nat} {n : Nat}
    (h : (deleteChat db u cid).1 = .ok n) :
    n = (db.messages.filter (fun m => m.chat == cid)).length ∧
    (deleteChat db u cid).2 = deleteConvById (deleteMessagesByChat db cid).2 cid := by
  cases hf : findChat db cid with
  | none => simp [deleteChat, hf] at h
  | some chat =>
    by_cases hp : isParticipant chat u = false
    · simp [deleteChat, hf, hp] at h
    · have hn := h
      simp [deleteChat, hf, hp, deleteMessagesByChat] at hn
      exact ⟨hn.symm, by simp [deleteChat, hf, hp]⟩

/-! ### Counting lemmas for the unread aggregation -/

theorem filter_map_markRead_nil (cid : Nat) (u : String) :
    ∀ L : List Msg,
      (L.map (markReadUpdate cid u)).filter
        (fun m => m.chat == cid && m.receiver == u && !m.isRead) = []
  | [] => rfl
  | m :: L => by
    have ih := filter_map_markRead_nil cid u L
    simp only [List.map_cons, List.filter_cons, markReadUpdate]
    by_cases h1 : (m.chat == cid) = true <;>
      by_cases h2 : (m.receiver == u) = true <;>
        by_cases h3 : m.isRead = true <;>
          simp [h1, h2, h3, ih]

theorem unread_count_decompose (cid : Nat) (u : String) :
    ∀ L : List Msg,
      (L.filter (fun m => m.receiver == u && !m.isRead)).length =
        ((L.map (markReadUpdate cid u)).filter
          (fun m => m.receiver == u && !m.isRead)).length +
        (L.filter (fun m => m.chat == cid && m.receiver == u && !m.isRead)).length
  | [] => rfl
  | m :: L => by
    have ih := unread_count_decompose cid u L
    simp only [List.map_cons, List.filter_cons, markReadUpdate]
    by_cases h1 : (m.chat == cid) = true <;>
      by_cases h2 : (m.receiver == u) = true <;>
        by_cases h3 : m.isRead = true <;>
          simp [h1, h2, h3] <;> omega


/-! ### Claim theorems -/

/-- C1, corrected.  The code does not implement Policy S: `startChat`
unconditionally creates a new chat document ("unlimited chats allowed between
same users"), so repeated `start(A,B)` calls return distinct conversations for
the same canonical pair, and the store accumulates one conversation per call. -/
theorem chat_C1_policyM (db : DB) (now now' : Nat) (me : String)
    (r : Option String) (c₁ c₂ : Conv)
    (h₁ : (startChat db now me r).1 = .ok c₁)
    (h₂ : (startChat (startChat db now me r).2 now' me r).1 = .ok c₂) :
    c₁.id ≠ c₂.id ∧ c₁.user1 = c₂.user1 ∧ c₁.user2 = c₂.user2 ∧
    (startChat (startChat db now me r).2 now' me r).2.chats =
      db.chats ++ [c₁, c₂] := by
  obtain ⟨hv₁, hid₁, _, hdb₁⟩ := startChat_ok_inv h₁
  obtain ⟨hv₂, hid₂, _, hdb₂⟩ := startChat_ok_inv h₂
  have hpair : (c₁.user1, c₁.user2) = (c₂.user1, c₂.user2) := by
    have hboth := hv₁.symm.trans hv₂
    simpa using hboth
  have he₁ : c₁.user1 = c₂.user1 := congrArg Prod.fst hpair
  have he₂ : c₁.user2 = c₂.user2 := congrArg Prod.snd hpair
  refine ⟨?_, he₁, he₂, ?_⟩
  · rw [hid₁, hid₂, hdb₁]
    simp
  · rw [hdb₂, hdb₁]
    simp

/-- C1 witness for the amended claim: two concrete back-to-back
`start(uA, uB)` calls return conversations with distinct ids. -/
theorem chat_C1_policyM_witness :
    (⟨0, uA, uB, none, 0, 0⟩ : Conv).id ≠ (⟨1, uA, uB, none, 1, 1⟩ : Conv).id :=
  (chat_C1_policyM dbEmpty 0 1 uA (some uB) ⟨0, uA, uB, none, 0, 0⟩
    ⟨1, uA, uB, none, 1, 1⟩ (by decide) (by decide)).1

/-- C1 counterexample to the claim as stated: after two `start(uA, uB)` calls
the store holds two conversations for the unordered pair, and the two calls
return different conversations — Policy S does not hold. -/
theorem chat_C1_counterexample :
    ((startChat ((startChat dbEmpty 0 uA (some uB)).2) 1 uA (some uB)).2.chats.filter
      (fun c => c.user1 == uA && c.user2 == uB)).length = 2 ∧
    (startChat dbEmpty 0 uA (some uB)).1 ≠
      (startChat ((startChat dbEmpty 0 uA (some uB)).2) 1 uA (some uB)).1 := by
  decide

/-- C2, corrected.  A non-participant invoking list-messages, send-message or
delete-conversation on an *existing* conversation always receives `Forbidden`
and the store is unchanged; but existence is checked first, so on an absent
conversation all three fail `NotFound` instead (for send-message, in both
cases, only after the text has passed validation). -/
theorem chat_C2_forbidden (db : DB) (now : Nat) (u : String) (cid : Nat)
    (t : String) (ht₁ : (jsTrim t).length ≠ 0)
    (ht₂ : (jsTrim t).length ≤ 2000) :
    (∀ chat, findChat db cid = some chat → chat.user1 ≠ u → chat.user2 ≠ u →
      getMessages db u cid = (.error .forbidden, db) ∧
      sendMessage db now u cid (some t) = (.error .forbidden, db) ∧
      deleteChat db u cid = (.error .forbidden, db)) ∧
    (findChat db cid = none →
      getMessages db u cid = (.error .notFound, db) ∧
      sendMessage db now u cid (some t) = (.error .notFound, db) ∧
      deleteChat db u cid = (.error .notFound, db)) := by
  have hb : ¬ 2000 < (jsTrim t).length := Nat.not_lt.mpr ht₂
  constructor
  · intro chat hf hu1 hu2
    have hp : isParticipant chat u = false := isParticipant_false_iff.mpr ⟨hu1, hu2⟩
    refine ⟨?_, ?_, ?_⟩
    · simp [getMessages, hf, hp]
    · simp [sendMessage, ht₁, hb, hf, hp]
    · simp [deleteChat, hf, hp]
  · intro hf
    refine ⟨?_, ?_, ?_⟩
    · simp [getMessages, hf]
    · simp [sendMessage, ht₁, hb, hf]
    · simp [deleteChat, hf]

/-- C2 witness for the amended claim: the outsider `uC` is refused with
`Forbidden` on the existing conversation of `dbTwo`, with the store intact. -/
theorem chat_C2_forbidden_witness :
    getMessages dbTwo uC 0 = (.error .forbidden, dbTwo) ∧
    sendMessage dbTwo 9 uC 0 (some "x") = (.error .forbidden, dbTwo) ∧
    deleteChat dbTwo uC 0 = (.error .forbidden, dbTwo) :=
  (chat_C2_forbidden dbTwo 9 uC 0 "x" (by decide) (by decide)).1
    ⟨0, uA, uB, some 1, 0, 3⟩ (by decide) (by decide) (by decide)

/-- C2 counterexample to the claim as stated: on a nonexistent conversation a
non-participant does *not* receive `Forbidden` (all three operations answer
`NotFound`), contradicting "regardless of whether the conversation exists". -/
theorem chat_C2_counterexample :
    (getMessages dbEmpty uC 0).1 ≠ .error .forbidden ∧
    (sendMessage dbEmpty 9 uC 0 (some "x")).1 ≠ .error .forbidden ∧
    (deleteChat dbEmpty uC 0).1 ≠ .error .forbidden := by
  decide

/-- C5, confirmed.  For a trim-stable id `A`, `start(A, A)` always fails with
`InvalidArgument` and the store is returned unchanged — whether `A` is empty,
a `'null'`/`'undefined'` literal, malformed, or a well-formed id equal to the
caller's. -/
theorem chat_C5_no_self_chat (db : DB) (now : Nat) (A : String)
    (hA : jsTrim A = A) :
    startChat db now A (some A) = (.error .invalidArgument, db) := by
  have hv : startValidate A (some A) = .error .invalidArgument := by
    simp only [startValidate]
    by_cases h1 : A = "" ∨ jsTrim A = "" ∨ A = "null" ∨ A = "undefined"
    · rw [if_pos h1]
    · rw [if_neg h1, hA]
      by_cases h2 : isValidObjectId A = false
      · rw [if_pos h2]
      · rw [if_neg h2, if_neg h2, if_pos rfl]
  simp [startChat, hv]

/-- C5 witness: the concrete self-chat attempt `start(uA, uA)` on `dbTwo`
fails `InvalidArgument` and leaves the store unchanged. -/
theorem chat_C5_witness :
    startChat dbTwo 7 uA (some uA) = (.error .invalidArgument, dbTwo) :=
  chat_C5_no_self_chat dbTwo 7 uA (by decide)


/-- C3, confirmed.  `countUnread(U)` is exactly the number of stored messages
with `receiver = U` and `isRead = false`; after `U` lists the messages of
conversation `c` (the mark-read side effect), no message of `c` addressed to
`U` is unread any more, and `U`'s global unread count has decreased by exactly
the conversation's prior unread count. -/
theorem chat_C3_unread (db : DB) (u : String) (cid : Nat) (msgs : List Msg)
    (h : (getMessages db u cid).1 = .ok msgs) :
    unreadCount db u =
      (db.messages.filter (fun m => m.receiver == u && !m.isRead)).length ∧
    unreadInChat (getMessages db u cid).2 cid u = 0 ∧
    unreadCount db u =
      unreadCount (getMessages db u cid).2 u + unreadInChat db cid u := by
  obtain ⟨hmsgs, hdb⟩ := getMessages_ok_inv h
  refine ⟨rfl, ?_, ?_⟩
  · rw [hdb]
    simp only [unreadInChat]
    rw [filter_map_markRead_nil]
    rfl
  · rw [hdb]
    simp only [unreadCount, unreadInChat]
    exact unread_count_decompose cid u db.messages

/-- C3 witness: in `dbTwo`, after `uB` lists conversation 0 both of its unread
messages are marked read and the aggregate count drops from 2 to 0. -/
theorem chat_C3_witness :
    unreadInChat (getMessages dbTwo uB 0).2 0 uB = 0 ∧
    unreadCount dbTwo uB =
      unreadCount (getMessages dbTwo uB 0).2 uB + unreadInChat dbTwo 0 uB :=
  ⟨(chat_C3_unread dbTwo uB 0
      [⟨0, 0, uA, uB, "hi", false, 2⟩, ⟨1, 0, uA, uB, "there", false, 3⟩]
      (by decide)).2.1,
   (chat_C3_unread dbTwo uB 0
      [⟨0, 0, uA, uB, "hi", false, 2⟩, ⟨1, 0, uA, uB, "there", false, 3⟩]
      (by decide)).2.2⟩

/-- C4, confirmed.  For distinct trim-stable ids, `start(A,B)` and
`start(B,A)` store the same canonical pair — the two ids sorted by the JS
string order, with `user1` the lesser and `user2` the greater — and
`user1 < user2` holds strictly. -/
theorem chat_C4_canonical (db db' : DB) (now now' : Nat) (A B : String)
    (c₁ c₂ : Conv) (hA : jsTrim A = A) (hB : jsTrim B = B)
    (h₁ : (startChat db now A (some B)).1 = .ok c₁)
    (h₂ : (startChat db' now' B (some A)).1 = .ok c₂) :
    c₁.user1 = c₂.user1 ∧ c₁.user2 = c₂.user2 ∧
    strLt c₁.user1 c₁.user2 = true := by
  obtain ⟨hv₁, _, _, _⟩ := startChat_ok_inv h₁
  obtain ⟨hv₂, _, _, _⟩ := startChat_ok_inv h₂
  obtain ⟨hrB, hmeA, hneBA, hq₁, hne₁⟩ := startValidate_ok_inv hv₁
  obtain ⟨hrA, hmeB, hneAB, hq₂, hne₂⟩ := startValidate_ok_inv hv₂
  rw [hB] at hq₁
  rw [hA, sortPair_comm (oidToString B) (oidToString A)] at hq₂
  have hpair : (c₁.user1, c₁.user2) = (c₂.user1, c₂.user2) := hq₁.trans hq₂.symm
  have he₁ : c₁.user1 = c₂.user1 := congrArg Prod.fst hpair
  have he₂ : c₁.user2 = c₂.user2 := congrArg Prod.snd hpair
  refine ⟨he₁, he₂, ?_⟩
  have hf₁ : c₁.user1 = (sortPair (oidToString A) (oidToString B)).1 :=
    congrArg Prod.fst hq₁
  have hf₂ : c₁.user2 = (sortPair (oidToString A) (oidToString B)).2 :=
    congrArg Prod.snd hq₁
  rw [hf₁, hf₂]
  exact sortPair_fst_lt (by rw [← hf₁, ← hf₂]; exact hne₁)

/-- C4 witness: concrete `start(uA, uB)` and `start(uB, uA)` both store the
pair `(uA, uB)` with the strict order holding. -/
theorem chat_C4_witness :
    strLt (⟨0, uA, uB, none, 0, 0⟩ : Conv).user1
      (⟨0, uA, uB, none, 0, 0⟩ : Conv).user2 = true :=
  (chat_C4_canonical dbEmpty dbEmpty 0 0 uA uB ⟨0, uA, uB, none, 0, 0⟩
    ⟨0, uA, uB, none, 0, 0⟩ (by decide) (by decide) (by decide) (by decide)).2.2

/-- C10, confirmed.  `startChat` never consults the user store: for any
well-formed receiver id distinct from the caller's, the call succeeds and
appends a conversation even when no such user exists (the hypothesis states
the receiver is absent from `users`), and its outcome is unchanged by
replacing the user collection with anything else — in particular it never
fails `NotFound` for an absent counterpart. -/
theorem chat_C10_no_counterpart_check (db : DB) (now : Nat) (me r : String)
    (hme : isValidObjectId me = true)
    (hr : isValidObjectId (jsTrim r) = true)
    (hne : oidToString (jsTrim r) ≠ oidToString me)
    (_habsent : oidToString (jsTrim r) ∉ db.users) :
    (startChat db now me (some r)).1 = .ok
      ⟨db.nextChatId, (sortPair (oidToString me) (oidToString (jsTrim r))).1,
       (sortPair (oidToString me) (oidToString (jsTrim r))).2, none, now, now⟩ ∧
    (startChat db now me (some r)).2.chats = db.chats ++
      [⟨db.nextChatId, (sortPair (oidToString me) (oidToString (jsTrim r))).1,
        (sortPair (oidToString me) (oidToString (jsTrim r))).2, none, now, now⟩] ∧
    ∀ us, (startChat { db with users := us } now me (some r)).1 =
      (startChat db now me (some r)).1 := by
  have hv := startValidate_ok_of_valid hme hr hne
  refine ⟨?_, ?_, ?_⟩
  · simp [startChat, hv]
  · simp [startChat, hv]
  · intro us
    simp [startChat, hv]

/-- C10 witness: `start(uA, uB)` on the empty store (no user `uB` exists)
succeeds and stores the conversation. -/
theorem chat_C10_witness :
    (startChat dbEmpty 0 uA (some uB)).1 = .ok
      ⟨dbEmpty.nextChatId, (sortPair (oidToString uA) (oidToString (jsTrim uB))).1,
       (sortPair (oidToString uA) (oidToString (jsTrim uB))).2, none, 0, 0⟩ :=
  (chat_C10_no_counterpart_check dbEmpty 0 uA uB (by decide) (by decide)
    (by decide) (by decide)).1


/-- C6, confirmed.  Send-message rejects text that is empty after trimming or
longer than 2000 characters with `InvalidArgument`, leaving the store
unchanged; with a trimmed length in 1..2000 and an authorized participant of
an existing (well-formed) conversation it succeeds, appending a message with
`isRead = false`. -/
theorem chat_C6_text_bounds (db : DB) (now : Nat) (u : String) (cid : Nat)
    (chat : Conv) (t0 tBig tOk : String)
    (h0 : (jsTrim t0).length = 0)
    (hBig : 2000 < (jsTrim tBig).length)
    (hOk1 : 1 ≤ (jsTrim tOk).length) (hOk2 : (jsTrim tOk).length ≤ 2000)
    (hfind : findChat db cid = some chat)
    (hpart : chat.user1 = u ∨ chat.user2 = u)
    (hwf : chat.user1 ≠ chat.user2) :
    sendMessage db now u cid (some t0) = (.error .invalidArgument, db) ∧
    sendMessage db now u cid (some tBig) = (.error .invalidArgument, db) ∧
    ∃ m, (sendMessage db now u cid (some tOk)).1 = .ok m ∧ m.isRead = false ∧
      (sendMessage db now u cid (some tOk)).2.messages = db.messages ++ [m] := by
  have hz : (jsTrim tBig).length ≠ 0 := by omega
  have hzOk : ¬ (jsTrim tOk).length = 0 := by omega
  have hbOk : ¬ 2000 < (jsTrim tOk).length := by omega
  have hp : isParticipant chat u = true := isParticipant_true_of hpart
  have hp' : ¬ isParticipant chat u = false := by simp [hp]
  refine ⟨by simp [sendMessage, h0], by simp [sendMessage, hz, hBig], ?_⟩
  rcases hpart with he | he
  · have hne2 : (chat.user2 == u) = false := by
      refine beq_eq_false_iff_ne.mpr ?_
      intro h2
      exact hwf (he.trans h2.symm)
    have hfound : chat.participants.find? (fun p => !(p == u)) =
        some chat.user2 := by
      simp [Conv.participants, List.find?, he, hne2]
    refine ⟨⟨db.nextMsgId, cid, u, chat.user2, jsTrim tOk, false, now⟩, ?_, rfl, ?_⟩
    · simp [sendMessage, hzOk, hbOk, hfind, hp', hfound]
    · simp [sendMessage, hzOk, hbOk, hfind, hp', hfound]
  · have hne1 : (chat.user1 == u) = false := by
      refine beq_eq_false_iff_ne.mpr ?_
      intro h1
      exact hwf (h1.trans he.symm)
    have hfound : chat.participants.find? (fun p => !(p == u)) =
        some chat.user1 := by
      simp [Conv.participants, List.find?, hne1]
    refine ⟨⟨db.nextMsgId, cid, u, chat.user1, jsTrim tOk, false, now⟩, ?_, rfl, ?_⟩
    · simp [sendMessage, hzOk, hbOk, hfind, hp', hfound]
    · simp [sendMessage, hzOk, hbOk, hfind, hp', hfound]

/-- C6 witness: on `dbChat`, whitespace-only text and a 2001-character text
are rejected, while a one-character text is stored unread. -/
theorem chat_C6_witness :
    sendMessage dbChat 4 uA 0 (some "  ") = (.error .invalidArgument, dbChat) ∧
    sendMessage dbChat 4 uA 0 (some ⟨List.replicate 2001 (Char.ofNat 120)⟩) =
      (.error .invalidArgument, dbChat) := by
  have hBig : 2000 < (jsTrim ⟨List.replicate 2001 (Char.ofNat 120)⟩).length := by
    have ht : jsTrim ⟨List.replicate 2001 (Char.ofNat 120)⟩ =
        ⟨List.replicate 2001 (Char.ofNat 120)⟩ := by
      apply jsTrim_eq_self_of_all
      intro c hc
      rw [List.eq_of_mem_replicate hc]
      decide
    rw [ht]
    show 2000 < (List.replicate 2001 (Char.ofNat 120)).length
    rw [List.length_replicate]
    omega
  have h := chat_C6_text_bounds dbChat 4 uA 0
    ⟨0, uA, uB, none, 0, 0⟩ "  " ⟨List.replicate 2001 (Char.ofNat 120)⟩ "y"
    (by decide) hBig (by decide) (by decide) (by decide) (by decide) (by decide)
  exact ⟨h.1, h.2.1⟩

/-- C7, corrected.  Every listing the database may return for a conversation
(`.sort({ createdAt: 1 })` with no secondary sort key) is non-decreasing in
`createdAt`, and the embedded `listByConversation` is one such admissible
listing; when `m₁` is sent strictly before `m₂` in timestamp
(`createdAt m₁ < createdAt m₂`), *every* admissible listing of the resulting
store places `m₁` before `m₂`.  The relative order of messages with equal
`createdAt` is left unspecified by the code. -/
theorem chat_C7_ordering (db : DB) (now₁ now₂ : Nat) (u₁ u₂ : String)
    (cid : Nat) (t₁ t₂ : String) (m₁ m₂ : Msg)
    (h₁ : (sendMessage db now₁ u₁ cid (some t₁)).1 = .ok m₁)
    (h₂ : (sendMessage (sendMessage db now₁ u₁ cid (some t₁)).2
      now₂ u₂ cid (some t₂)).1 = .ok m₂)
    (hclock : now₁ < now₂) :
    (∀ (db₀ : DB) (c : Nat),
      isAdmissibleListing db₀ c (listByConversation db₀ c)) ∧
    ∀ L, isAdmissibleListing
        (sendMessage (sendMessage db now₁ u₁ cid (some t₁)).2
          now₂ u₂ cid (some t₂)).2 cid L →
      L.indexOf m₁ < L.indexOf m₂ := by
  obtain ⟨hc₁, htt₁, _, _, _, _, hmsg₁⟩ := sendMessage_ok_inv h₁
  obtain ⟨hc₂, htt₂, _, _, _, _, hmsg₂⟩ := sendMessage_ok_inv h₂
  constructor
  · intro db₀ c
    exact ⟨List.isPerm_iff.mpr (List.perm_insertionSort msgLe _),
      List.sorted_insertionSort msgLe _⟩
  · intro L hL
    obtain ⟨hperm, hsort⟩ := hL
    have hp := List.isPerm_iff.mp hperm
    rw [hmsg₂, hmsg₁, List.append_assoc, List.filter_append] at hp
    have hf₁ : List.filter (fun m => m.chat == cid) ([m₁] ++ [m₂]) = [m₁, m₂] := by
      simp [hc₁, hc₂]
    rw [hf₁] at hp
    have hm₁L : m₁ ∈ L := hp.mem_iff.mpr (by simp)
    have hm₂L : m₂ ∈ L := hp.mem_iff.mpr (by simp)
    have hne : m₁ ≠ m₂ := by
      intro he
      rw [he, htt₂] at htt₁
      omega
    have hi : L.indexOf m₁ < L.length := List.indexOf_lt_length.mpr hm₁L
    have hj : L.indexOf m₂ < L.length := List.indexOf_lt_length.mpr hm₂L
    by_contra hcon
    push_neg at hcon
    rcases Nat.lt_or_ge (L.indexOf m₂) (L.indexOf m₁) with hlt | hge
    · have hrel := List.pairwise_iff_get.mp hsort
        ⟨L.indexOf m₂, hj⟩ ⟨L.indexOf m₁, hi⟩ hlt
      rw [List.indexOf_get, List.indexOf_get] at hrel
      have hle : m₂.createdAt ≤ m₁.createdAt := hrel
      rw [htt₁, htt₂] at hle
      omega
    · have heq : L.indexOf m₁ = L.indexOf m₂ := by omega
      apply hne
      have e₁ := List.indexOf_get hi
      have e₂ := List.indexOf_get hj
      rw [← e₁, ← e₂]
      exact congrArg L.get (Fin.ext heq)

/-- C7 counterexample to the tie-break clause as stated: in `dbTie` both
messages of chat 0 share `createdAt = 5` and message 0 was inserted before
message 1, yet the listing that returns message 1 first is also an admissible
result of `.sort({ createdAt: 1 })` — without a secondary sort key the program
does not guarantee insertion-order tie-breaking. -/
theorem chat_C7_counterexample :
    dbTie.messages =
      [⟨0, 0, uA, uB, "hi", false, 5⟩, ⟨1, 0, uA, uB, "yo", false, 5⟩] ∧
    (⟨0, 0, uA, uB, "hi", false, 5⟩ : Msg) ≠ ⟨1, 0, uA, uB, "yo", false, 5⟩ ∧
    isAdmissibleListing dbTie 0
      [⟨1, 0, uA, uB, "yo", false, 5⟩, ⟨0, 0, uA, uB, "hi", false, 5⟩] := by
  refine ⟨rfl, by decide, by decide, by decide⟩

/-- C7 witness for the amended claim: sending "a" at time 1 then "b" at
time 2 places the first message strictly before the second in the concrete
listing, which is itself admissible. -/
theorem chat_C7_witness :
    (listByConversation (sendMessage (sendMessage dbChat 1 uA 0 (some "a")).2
        2 uB 0 (some "b")).2 0).indexOf ⟨0, 0, uA, uB, "a", false, 1⟩ <
    (listByConversation (sendMessage (sendMessage dbChat 1 uA 0 (some "a")).2
        2 uB 0 (some "b")).2 0).indexOf ⟨1, 0, uB, uA, "b", false, 2⟩ :=
  (chat_C7_ordering dbChat 1 2 uA uB 0 "a" "b"
      ⟨0, 0, uA, uB, "a", false, 1⟩ ⟨1, 0, uB, uA, "b", false, 2⟩
      (by decide) (by decide) (by decide)).2
    (listByConversation (sendMessage (sendMessage dbChat 1 uA 0 (some "a")).2
        2 uB 0 (some "b")).2 0)
    ((chat_C7_ordering dbChat 1 2 uA uB 0 "a" "b"
      ⟨0, 0, uA, uB, "a", false, 1⟩ ⟨1, 0, uB, uA, "b", false, 2⟩
      (by decide) (by decide) (by decide)).1
      (sendMessage (sendMessage dbChat 1 uA 0 (some "a")).2 2 uB 0 (some "b")).2 0)

/-- C8, confirmed.  After a participant's delete succeeds, the conversation
lists no messages and can no longer be found; the message cascade runs first
(the intermediate store has no messages of the chat while the chat row is
still present), and the reported count is the number of the chat's messages. -/
theorem chat_C8_delete_cascade (db : DB) (u : String) (cid : Nat) (n : Nat)
    (h : (deleteChat db u cid).1 = .ok n) :
    listByConversation (deleteChat db u cid).2 cid = [] ∧
    findChat (deleteChat db u cid).2 cid = none ∧
    n = (db.messages.filter (fun m => m.chat == cid)).length ∧
    (deleteMessagesByChat db cid).2.messages.filter
      (fun m => m.chat == cid) = [] ∧
    (deleteMessagesByChat db cid).2.chats = db.chats ∧
    (deleteChat db u cid).2 =
      deleteConvById (deleteMessagesByChat db cid).2 cid := by
  obtain ⟨hn, hdb⟩ := deleteChat_ok_inv h
  have hmsgs : (db.messages.filter (fun m => !(m.chat == cid))).filter
      (fun m => m.chat == cid) = [] := by
    rw [List.filter_filter]
    apply List.filter_eq_nil_iff.mpr
    intro a _
    simp
  refine ⟨?_, ?_, hn, hmsgs, rfl, hdb⟩
  · rw [hdb]
    simp only [listByConversation, deleteConvById, deleteMessagesByChat]
    rw [hmsgs]
    rfl
  · rw [hdb]
    simp only [findChat, deleteConvById, deleteMessagesByChat]
    apply List.find?_eq_none.mpr
    intro c hc
    have hnc := (List.mem_filter.mp hc).2
    simpa using hnc

/-- C8 witness: `uA` deletes conversation 0 of `dbTwo`; afterwards its listing
is empty, it cannot be found, and 2 messages were reported deleted. -/
theorem chat_C8_witness :
    listByConversation (deleteChat dbTwo uA 0).2 0 = [] ∧
    findChat (deleteChat dbTwo uA 0).2 0 = none :=
  ⟨(chat_C8_delete_cascade dbTwo uA 0 2 (by decide)).1,
   (chat_C8_delete_cascade dbTwo uA 0 2 (by decide)).2.1⟩

/-- C9, confirmed.  The message list returned by a participant's listing is
computed before the mark-read update: every message addressed to the caller
that was unread at call time appears in the response still carrying
`isRead = false`, even though the store afterwards holds it marked read. -/
theorem chat_C9_snapshot (db : DB) (u : String) (cid : Nat) (msgs : List Msg)
    (m : Msg) (h : (getMessages db u cid).1 = .ok msgs)
    (hm : m ∈ db.messages) (hc : m.chat = cid) (hr : m.receiver = u)
    (hu : m.isRead = false) :
    m ∈ msgs ∧ m.isRead = false ∧
    { m with isRead := true } ∈ (getMessages db u cid).2.messages := by
  obtain ⟨hmsgs, hdb⟩ := getMessages_ok_inv h
  refine ⟨?_, hu, ?_⟩
  · rw [hmsgs, listByConversation, List.mem_insertionSort]
    exact List.mem_filter.mpr ⟨hm, by simp [hc]⟩
  · rw [hdb]
    show _ ∈ db.messages.map (markReadUpdate cid u)
    apply List.mem_map.mpr
    exact ⟨m, hm, by simp [markReadUpdate, hc, hr, hu]⟩

/-- C9 witness: `uB` lists conversation 0 of `dbTwo`; the response still shows
message 0 unread while the store now holds it marked read. -/
theorem chat_C9_witness :
    ({ (⟨0, 0, uA, uB, "hi", false, 2⟩ : Msg) with isRead := true }) ∈
      (getMessages dbTwo uB 0).2.messages :=
  (chat_C9_snapshot dbTwo uB 0
    [⟨0, 0, uA, uB, "hi", false, 2⟩, ⟨1, 0, uA, uB, "there", false, 3⟩]
    ⟨0, 0, uA, uB, "hi", false, 2⟩ (by decide) (by decide) rfl rfl rfl).2.2

end AdsChat
